import Mathlib

/-!
Verification of the date-range normalizer (`parse_dates`) and the sheet
pipeline (`process_dates` / `main`) of `src/eventscalendar.py`.

Strings are embedded as `List Char`.  The external natural-language date
parser (the `dateparser` library) is abstracted as a function
`Parser : Str → Option PDate`; theorems quantify over it, and a small
concrete model `dateparser_parse` (modelled from the spec's examples of
the parser's behaviour) instantiates it in witnesses.

The one exception the body of `parse_dates` can actually raise after the
parser returned — the `ValueError` of `datetime.replace(year=year+1)` on a
date that does not exist in the target year — is modelled with `Except`;
the `try/except` of the Python function corresponds to `pairOf`.
-/

abbrev Str := List Char

/-- Python's `\s` / `str.strip()` whitespace set (ASCII part). -/
def isPySpace (c : Char) : Bool :=
  c = ' ' || c = '\t' || c = '\n' || c = '\r' || c = '\x0b' || c = '\x0c'

/-- `str.strip()`: drop whitespace from both ends. -/
def stripWs (l : Str) : Str :=
  ((l.dropWhile isPySpace).reverse.dropWhile isPySpace).reverse

/-- Helper for `squeeze`: the Bool records whether the previous character
was part of a whitespace run already replaced by a single space. -/
def squeezeAux : Bool → Str → Str
  | _, [] => []
  | prevSpace, c :: cs =>
    if isPySpace c then
      if prevSpace then squeezeAux true cs else ' ' :: squeezeAux true cs
    else c :: squeezeAux false cs

/-- Python re.sub of one-or-more whitespace with a single space: every maximal
whitespace run becomes one space character. -/
def squeeze (l : Str) : Str := squeezeAux false l

/-- Line 27 of eventscalendar.py: strip, then collapse whitespace runs. -/
def normalize_ws (l : Str) : Str := squeeze (stripWs l)

/-- Split a character list on a separator character (every occurrence). -/
def splitOnChar (sep : Char) : Str → List Str
  | [] => [[]]
  | x :: xs =>
    if x = sep then [] :: splitOnChar sep xs
    else
      match splitOnChar sep xs with
      | [] => [[x]]
      | h :: t => (x :: h) :: t

/-- Lines 37–40: split on hyphen (the regex absorbs only whitespace around
each hyphen, which the subsequent strip removes anyway), strip each part and
keep the non-empty ones. -/
def splitParts (l : Str) : List Str :=
  ((splitOnChar '-' l).map stripWs).filter (fun p => p ≠ [])

/-- A calendar date as Python's datetime carries it (year, month, day). -/
structure PDate where
  year : Nat
  month : Nat
  day : Nat
deriving DecidableEq, Repr

/-- Python datetime comparison: lexicographic on (year, month, day). -/
def PDate.lt (a b : PDate) : Bool :=
  a.year < b.year ||
    (a.year == b.year &&
      (a.month < b.month || (a.month == b.month && a.day < b.day)))

/-- Non-strict order, negation of the strict order the other way. -/
def PDate.le (a b : PDate) : Bool := !(PDate.lt b a)

def isLeapYear (y : Nat) : Bool :=
  (y % 4 == 0 && y % 100 != 0) || y % 400 == 0

def daysInMonth (y m : Nat) : Nat :=
  if m = 2 then (if isLeapYear y then 29 else 28)
  else if m = 4 ∨ m = 6 ∨ m = 9 ∨ m = 11 then 30
  else 31

def validDate (y m d : Nat) : Bool :=
  1 ≤ m && m ≤ 12 && 1 ≤ d && d ≤ daysInMonth y m

/-- Line 74, end_date.replace(year=end_date.year + 1): Python's
datetime.replace validates the resulting date and raises ValueError when it
does not exist (Feb 29 of a non-leap year). -/
def replaceYear (d : PDate) (y : Nat) : Except Unit PDate :=
  if validDate y d.month d.day then Except.ok ⟨y, d.month, d.day⟩
  else Except.error ()

/-- The alternatives of the months regex of lines 46–50, in pattern order:
(abbreviation, full name).  Each alternative is Xxx(?:rest)? so the regex
engine first tries the full name, then the abbreviation. -/
def monthAlts : List (Str × Str) :=
  [("Jan".toList, "January".toList),
   ("Feb".toList, "February".toList),
   ("Mar".toList, "March".toList),
   ("Apr".toList, "April".toList),
   ("May".toList, "May".toList),
   ("Jun".toList, "June".toList),
   ("Jul".toList, "July".toList),
   ("Aug".toList, "August".toList),
   ("Sep".toList, "September".toList),
   ("Oct".toList, "October".toList),
   ("Nov".toList, "November".toList),
   ("Dec".toList, "December".toList)]

/-- Case-insensitive "pat is a prefix of l". -/
def lowerStarts (pat l : Str) : Bool :=
  (pat.map Char.toLower).isPrefixOf (l.map Char.toLower)

/-- Try the month alternation at the head of l: alternatives in pattern
order, greedy (full name before abbreviation); the match is returned as it
appears in l (re groups keep the original case). -/
def matchMonthAt (l : Str) : Option Str :=
  monthAlts.findSome? (fun a =>
    if lowerStarts a.2 l then some (l.take a.2.length)
    else if lowerStarts a.1 l then some (l.take a.1.length)
    else none)

/-- re.search of the months regex, case-insensitive: leftmost match wins. -/
def searchMonth : Str → Option Str
  | [] => none
  | c :: cs =>
    match matchMonthAt (c :: cs) with
    | some m => some m
    | none => searchMonth cs

/-- Python word character (ASCII part of \w). -/
def isWordChar (c : Char) : Bool := c.isAlphanum || c = '_'

/-- Does the year pattern match at the head of cs, given the character
just before (none at the start of the string)?  The pattern is
word-boundary, "20", two digits, word-boundary. -/
def yearAt (prev : Option Char) (cs : Str) : Bool :=
  match cs with
  | '2' :: '0' :: d1 :: d2 :: rest =>
    d1.isDigit && d2.isDigit &&
      (match prev with | some p => !isWordChar p | none => true) &&
      (match rest with | r :: _ => !isWordChar r | [] => true)
  | _ => false

def hasYearAux (prev : Option Char) : Str → Bool
  | [] => false
  | c :: cs => yearAt prev (c :: cs) || hasYearAux (some c) cs

/-- re.search of the four-digit-year pattern of lines 57/59/81: a
word-bounded "20dd" somewhere in the string. -/
def hasYear (s : Str) : Bool := hasYearAux none s

/-- The abstract natural-language date parser (dateparser.parse): it
produces a datetime or None. -/
abbrev Parser := Str → Option PDate

/-- Lines 51–54: if start_str has no month, copy the first month token found
in end_str onto it (appended after a space). -/
def fixMonth (start_str end_str : Str) : Str :=
  match searchMonth start_str with
  | some _ => start_str
  | none =>
    match searchMonth end_str with
    | some m => start_str ++ ' ' :: m
    | none => start_str

/-- Lines 57–60 (and 81–82): append the context year when the string has no
word-bounded 20dd year. -/
def fixYear (s year : Str) : Str :=
  if hasYear s then s else s ++ ' ' :: year

/-- Lines 63–74: parse both sides; if either fails the pair is (None, None);
otherwise roll the end date's year forward by one when it parses before the
start date — which is the one place a ValueError can escape to the
surrounding try. -/
def rangeCombine (P : Parser) (start_str end_str : Str) :
    Except Unit (Option PDate × Option PDate) :=
  match P start_str, P end_str with
  | some sd, some ed =>
    if PDate.lt ed sd then
      match replaceYear ed (ed.year + 1) with
      | Except.ok ed2 => Except.ok (some sd, some ed2)
      | Except.error u => Except.error u
    else Except.ok (some sd, some ed)
  | _, _ => Except.ok (none, none)

/-- The body of parse_dates (the code inside the try of lines 33–92). -/
def parse_dates_body (P : Parser) (date_str : Str) (current_year : Str) :
    Except Unit (Option PDate × Option PDate) :=
  if '-' ∈ normalize_ws date_str then
    match splitParts (normalize_ws date_str) with
    | [start_str, end_str] =>
      rangeCombine P (fixYear (fixMonth start_str end_str) current_year)
        (fixYear end_str current_year)
    | _ =>
      Except.ok (P (normalize_ws date_str), P (normalize_ws date_str))
  else
    Except.ok (P (fixYear (normalize_ws date_str) current_year),
      P (fixYear (normalize_ws date_str) current_year))

/-- The except handler of lines 94–97: any exception becomes (None, None). -/
def pairOf (r : Except Unit (Option PDate × Option PDate)) :
    Option PDate × Option PDate :=
  match r with
  | Except.ok v => v
  | Except.error _ => (none, none)

/-- parse_dates of lines 7–99: the body wrapped in the try/except. -/
def parse_dates (P : Parser) (date_str : Str) (current_year : Str) :
    Option PDate × Option PDate :=
  pairOf (parse_dates_body P date_str current_year)

/-- The two strings handed to the parser when the input goes through the
two-part range branch (none otherwise). -/
def rangeStrings (date_str : Str) (current_year : Str) : Option (Str × Str) :=
  if '-' ∈ normalize_ws date_str then
    match splitParts (normalize_ws date_str) with
    | [start_str, end_str] =>
      some (fixYear (fixMonth start_str end_str) current_year,
        fixYear end_str current_year)
    | _ => none
  else none

/-- Digit characters to a natural number (all characters must be digits). -/
def parseNatDigits (t : Str) : Option Nat :=
  if t ≠ [] ∧ t.all Char.isDigit then
    some (t.foldl (fun acc c => 10 * acc + (c.toNat - 48)) 0)
  else none

/-- Month-name lookup used by the concrete parser model: full names and
three-letter abbreviations, case-insensitive. -/
def monthNames : List (Str × Nat) :=
  [("january".toList, 1), ("jan".toList, 1),
   ("february".toList, 2), ("feb".toList, 2),
   ("march".toList, 3), ("mar".toList, 3),
   ("april".toList, 4), ("apr".toList, 4),
   ("may".toList, 5),
   ("june".toList, 6), ("jun".toList, 6),
   ("july".toList, 7), ("jul".toList, 7),
   ("august".toList, 8), ("aug".toList, 8),
   ("september".toList, 9), ("sep".toList, 9),
   ("october".toList, 10), ("oct".toList, 10),
   ("november".toList, 11), ("nov".toList, 11),
   ("december".toList, 12), ("dec".toList, 12)]

def monthNumber (t : Str) : Option Nat :=
  (monthNames.find? (fun p => p.1 = t.map Char.toLower)).map (fun p => p.2)

/-- ISO year-month-day token, e.g. "2022-05-06". -/
def isoParse (t : Str) : Option PDate :=
  match splitOnChar '-' t with
  | [ys, ms, ds] =>
    match parseNatDigits ys, parseNatDigits ms, parseNatDigits ds with
    | some yn, some mn, some dn =>
      if ys.length = 4 ∧ validDate yn mn dn then some ⟨yn, mn, dn⟩ else none
    | _, _, _ => none
  | _ => none

/-- Modelled from the spec: the external natural-language date parser
(dateparser.parse, an out-of-repository library) on the string shapes this
program produces — "day monthname year" (the spec's examples, e.g.
"30 Dec 2022" parses to 2022-12-30) and ISO "YYYY-MM-DD" dates (the format
the library recognizes directly); anything else, or a nonexistent calendar
date, yields None. -/
def dateparser_parse : Parser := fun s =>
  match (splitOnChar ' ' s).filter (fun t => t ≠ []) with
  | [t] => isoParse t
  | [d, m, y] =>
    match parseNatDigits d, monthNumber m, parseNatDigits y with
    | some dn, some mn, some yn =>
      if y.length = 4 ∧ validDate yn mn dn then some ⟨yn, mn, dn⟩ else none
    | _, _, _ => none
  | _ => none

/-!  The sheet pipeline: process_dates (lines 102–147) and main
(lines 150–170).  A workbook is modelled as a function from sheet name to
an optional data frame (None for a read failure, lines 118–125); a frame
is its column-name list plus rows of string cells aligned with it. -/

structure Frame where
  cols : List Str
  rows : List (List Str)
deriving DecidableEq

structure OutRow where
  row : List Str
  startDate : Str
  endDate : Str
deriving DecidableEq

def dateCol : Str := "Date".toList

/-- Cell of a row under a named column. -/
def getCell (cols : List Str) (row : List Str) (c : Str) : Str :=
  match cols.findIdx? (fun x => x = c) with
  | some i => row.getD i []
  | none => []

def pad2 (n : Nat) : Str :=
  List.replicate (2 - (Nat.toDigits 10 n).length) '0' ++ Nat.toDigits 10 n

def pad4 (n : Nat) : Str :=
  List.replicate (4 - (Nat.toDigits 10 n).length) '0' ++ Nat.toDigits 10 n

/-- strftime of lines 144–145 with the year-month-day format string. -/
def strftimeYMD (d : PDate) : Str :=
  pad4 d.year ++ '-' :: (pad2 d.month ++ '-' :: pad2 d.day)

/-- Lines 136–138: apply parse_dates to each row's Date cell (the sheet
name is passed as the context year). -/
def addParsed (P : Parser) (cols : List Str) (sheet_name : Str)
    (rows : List (List Str)) :
    List (List Str × (Option PDate × Option PDate)) :=
  rows.map (fun r => (r, parse_dates P (getCell cols r dateCol) sheet_name))

/-- Line 141: dropna on the two parsed columns. -/
def dropnaParsed (l : List (List Str × (Option PDate × Option PDate))) :
    List (List Str × (Option PDate × Option PDate)) :=
  l.filter (fun x => x.2.1.isSome && x.2.2.isSome)

/-- Lines 144–145: format the surviving parsed dates. -/
def formatParsed (l : List (List Str × (Option PDate × Option PDate))) :
    List OutRow :=
  l.map (fun x =>
    { row := x.1,
      startDate := strftimeYMD (x.2.1.getD ⟨0, 0, 0⟩),
      endDate := strftimeYMD (x.2.2.getD ⟨0, 0, 0⟩) })

/-- process_dates, lines 102–147: read the sheet (empty frame on failure),
require the Date column, parse, drop failures, format. -/
def process_dates (wb : Str → Option Frame) (P : Parser) (sheet_name : Str) :
    List OutRow :=
  match wb sheet_name with
  | none => []
  | some df =>
    if dateCol ∈ df.cols then
      formatParsed (dropnaParsed (addParsed P df.cols sheet_name df.rows))
    else []

/-- The three sheets main processes, lines 157–159. -/
def sheets : List Str := ["2022".toList, "2023".toList, "2024".toList]

/-- Lines 157–162 of main: process the three sheets and concatenate. -/
def main_df (wb : Str → Option Frame) (P : Parser) : List OutRow :=
  (sheets.map (process_dates wb P)).flatten

/-!  Helper lemmas.  -/

theorem splitOnChar_not_mem (c : Char) (l : Str) (h : c ∉ l) :
    splitOnChar c l = [l] := by
  induction l with
  | nil => rfl
  | cons x xs ih =>
    have hx : ¬x = c := fun he => h (he ▸ List.mem_cons_self x xs)
    have hxs : c ∉ xs := fun hm => h (List.mem_cons_of_mem x hm)
    unfold splitOnChar
    rw [if_neg hx, ih hxs]

theorem hyphen_mem_of_splitParts (l : Str) (h : 2 ≤ (splitParts l).length) :
    '-' ∈ l := by
  by_contra hc
  rw [splitParts, splitOnChar_not_mem '-' l hc] at h
  by_cases hd : stripWs l = [] <;> simp [List.filter, hd] at h

theorem body_eq_range (P : Parser) (s y q1 q2 : Str)
    (h : rangeStrings s y = some (q1, q2)) :
    parse_dates_body P s y = rangeCombine P q1 q2 := by
  unfold rangeStrings at h
  unfold parse_dates_body
  by_cases hc : '-' ∈ normalize_ws s
  · rw [if_pos hc] at h ⊢
    cases hsp : splitParts (normalize_ws s) with
    | nil => rw [hsp] at h; exact Option.noConfusion h
    | cons p1 t =>
      cases t with
      | nil => rw [hsp] at h; exact Option.noConfusion h
      | cons p2 t2 =>
        cases t2 with
        | nil =>
          rw [hsp] at h
          have h2 : (fixYear (fixMonth p1 p2) y, fixYear p2 y) = (q1, q2) :=
            Option.some.inj h
          show rangeCombine P (fixYear (fixMonth p1 p2) y) (fixYear p2 y) =
            rangeCombine P q1 q2
          rw [(Prod.mk.injEq _ _ _ _).mp h2 |>.1, (Prod.mk.injEq _ _ _ _).mp h2 |>.2]
        | cons p3 t3 => rw [hsp] at h; exact Option.noConfusion h
  · rw [if_neg hc] at h; exact Option.noConfusion h

theorem parse_dates_eq_range (P : Parser) (s y q1 q2 : Str)
    (h : rangeStrings s y = some (q1, q2)) :
    parse_dates P s y = pairOf (rangeCombine P q1 q2) := by
  rw [parse_dates, body_eq_range P s y q1 q2 h]

theorem parse_dates_eq_single (P : Parser) (s y : Str)
    (h : rangeStrings s y = none) :
    ∃ t, parse_dates P s y = (P t, P t) := by
  unfold rangeStrings at h
  unfold parse_dates parse_dates_body
  by_cases hc : '-' ∈ normalize_ws s
  · rw [if_pos hc] at h ⊢
    cases hsp : splitParts (normalize_ws s) with
    | nil => exact ⟨normalize_ws s, rfl⟩
    | cons p1 t =>
      cases t with
      | nil => exact ⟨normalize_ws s, rfl⟩
      | cons p2 t2 =>
        cases t2 with
        | nil => rw [hsp] at h; exact Option.noConfusion h
        | cons p3 t3 => exact ⟨normalize_ws s, rfl⟩
  · rw [if_neg hc]
    exact ⟨fixYear (normalize_ws s) y, rfl⟩

theorem rangeCombine_shape (P : Parser) (q1 q2 : Str) :
    pairOf (rangeCombine P q1 q2) = (none, none) ∨
      ∃ a b, pairOf (rangeCombine P q1 q2) = (some a, some b) := by
  unfold rangeCombine
  split
  · rename_i sd ed heq1 heq2
    by_cases hlt : PDate.lt ed sd = true
    · rw [if_pos hlt]
      unfold replaceYear
      by_cases hv : validDate (ed.year + 1) ed.month ed.day = true
      · rw [if_pos hv]
        exact Or.inr ⟨sd, ⟨ed.year + 1, ed.month, ed.day⟩, rfl⟩
      · rw [if_neg hv]; exact Or.inl rfl
    · rw [if_neg hlt]; exact Or.inr ⟨sd, ed, rfl⟩
  · exact Or.inl rfl

theorem parse_dates_shape (P : Parser) (s y : Str) :
    parse_dates P s y = (none, none) ∨
      ∃ a b, parse_dates P s y = (some a, some b) := by
  cases hr : rangeStrings s y with
  | none =>
    obtain ⟨t, ht⟩ := parse_dates_eq_single P s y hr
    cases hp : P t with
    | none => left; rw [ht, hp]
    | some d => right; exact ⟨d, d, by rw [ht, hp]⟩
  | some q =>
    rw [parse_dates_eq_range P s y q.1 q.2 (by rw [hr])]
    exact rangeCombine_shape P q.1 q.2

theorem PDate.lt_iff (a b : PDate) :
    PDate.lt a b = true ↔
      (a.year < b.year ∨ (a.year = b.year ∧
        (a.month < b.month ∨ (a.month = b.month ∧ a.day < b.day)))) := by
  simp [PDate.lt]

theorem PDate.le_refl (a : PDate) : PDate.le a a = true := by
  simp [PDate.le, PDate.lt]

theorem PDate.le_of_not_lt (a b : PDate) (h : PDate.lt b a = false) :
    PDate.le a b = true := by
  simp [PDate.le, h]

theorem PDate.le_of_year_lt (a b : PDate) (h : a.year < b.year) :
    PDate.le a b = true := by
  apply PDate.le_of_not_lt
  rw [← Bool.not_eq_true, PDate.lt_iff]
  omega

/-- Key step lemma for the range branch: when both sides parse and their
dates carry the same year, the returned pair is ordered. -/
theorem rangeCombine_le (P : Parser) (q1 q2 : Str) (a0 b0 a b : PDate)
    (hp1 : P q1 = some a0) (hp2 : P q2 = some b0) (hyy : a0.year = b0.year)
    (h : pairOf (rangeCombine P q1 q2) = (some a, some b)) :
    PDate.le a b = true := by
  unfold rangeCombine at h
  rw [hp1, hp2] at h
  have h' : pairOf (if PDate.lt b0 a0 = true then
      match replaceYear b0 (b0.year + 1) with
      | Except.ok ed2 => Except.ok (some a0, some ed2)
      | Except.error u => Except.error u
    else Except.ok (some a0, some b0)) = (some a, some b) := h
  by_cases hlt : PDate.lt b0 a0 = true
  · rw [if_pos hlt] at h'
    unfold replaceYear at h'
    by_cases hv : validDate (b0.year + 1) b0.month b0.day = true
    · rw [if_pos hv] at h'
      have ha : some a0 = some a := congrArg Prod.fst h'
      have hb : (some ⟨b0.year + 1, b0.month, b0.day⟩ : Option PDate) = some b :=
        congrArg Prod.snd h'
      rw [← Option.some.inj ha, ← Option.some.inj hb]
      apply PDate.le_of_year_lt
      show a0.year < b0.year + 1
      omega
    · rw [if_neg hv] at h'
      exact absurd (congrArg Prod.fst h') (by simp [pairOf])
  · rw [if_neg hlt] at h'
    have ha : some a0 = some a := congrArg Prod.fst h'
    have hb : some b0 = some b := congrArg Prod.snd h'
    rw [← Option.some.inj ha, ← Option.some.inj hb]
    apply PDate.le_of_not_lt
    simpa using hlt

/-!  The claims.  -/

/-- C10: for every parser, input string and context year, the pair returned
by parse_dates is all-or-nothing — the start is None exactly when the end
is None. -/
theorem parse_dates_all_or_nothing (P : Parser) (s y : Str) :
    (parse_dates P s y).1 = none ↔ (parse_dates P s y).2 = none := by
  rcases parse_dates_shape P s y with h | ⟨a, b, h⟩
  · rw [h]
  · rw [h]
    simp

/-- C1 (counterexample): with both sides carrying explicit years more than a
year apart, parse_dates returns a successfully parsed range whose end date
is strictly before its start date, refuting the claimed invariant. -/
theorem range_end_before_start_cex :
    parse_dates dateparser_parse "10 May 2024 - 9 May 2022".toList
        "2024".toList =
      (some ⟨2024, 5, 10⟩, some ⟨2023, 5, 9⟩) ∧
    PDate.lt ⟨2023, 5, 9⟩ ⟨2024, 5, 10⟩ = true := by
  constructor
  · decide
  · decide

/-- C1 (amended): if a range is successfully parsed and the two sides
initially parse into the same calendar year (the common case, where the
context year fills in both years), then the end date is not before the
start date; the single-date branches trivially satisfy the order since
start and end coincide. -/
theorem parse_range_end_ge_start (P : Parser) (s y : Str) (a b : PDate)
    (h : parse_dates P s y = (some a, some b))
    (hy : rangeStrings s y = none ∨
      ∃ q1 q2 a0 b0, rangeStrings s y = some (q1, q2) ∧ P q1 = some a0 ∧
        P q2 = some b0 ∧ a0.year = b0.year) :
    PDate.le a b = true := by
  rcases hy with hr | ⟨q1, q2, a0, b0, hr, hp1, hp2, hyy⟩
  · obtain ⟨t, ht⟩ := parse_dates_eq_single P s y hr
    rw [ht] at h
    have h1 : P t = some a := congrArg Prod.fst h
    have h2 : P t = some b := congrArg Prod.snd h
    rw [h1] at h2
    rw [← Option.some.inj h2]
    exact PDate.le_refl a
  · rw [parse_dates_eq_range P s y q1 q2 hr] at h
    exact rangeCombine_le P q1 q2 a0 b0 a b hp1 hp2 hyy h

/-- C1 (witness): the year-rollover example satisfies the amended claim. -/
theorem parse_range_end_ge_start_witness :
    parse_dates dateparser_parse "30 Dec - 2 Jan".toList "2022".toList =
      (some ⟨2022, 12, 30⟩, some ⟨2023, 1, 2⟩) ∧
    PDate.le ⟨2022, 12, 30⟩ ⟨2023, 1, 2⟩ = true :=
  ⟨by decide,
    parse_range_end_ge_start dateparser_parse "30 Dec - 2 Jan".toList
      "2022".toList ⟨2022, 12, 30⟩ ⟨2023, 1, 2⟩ (by decide)
      (Or.inr ⟨"30 Dec 2022".toList, "2 Jan 2022".toList, ⟨2022, 12, 30⟩,
        ⟨2022, 1, 2⟩, by decide, by decide, by decide, rfl⟩)⟩

/-- C2 (counterexample): "2022-05-06" splits into three non-empty parts on
hyphen, yet normalize does not yield Unparseable — the fallback parses the
whole string as a single date. -/
theorem ambiguous_split_not_unparseable_cex :
    2 < (splitParts (normalize_ws "2022-05-06".toList)).length ∧
    parse_dates dateparser_parse "2022-05-06".toList "2024".toList =
      (some ⟨2022, 5, 6⟩, some ⟨2022, 5, 6⟩) := by
  constructor
  · decide
  · decide

/-- C2 (amended): when the hyphen split yields more than two non-empty
parts, parse_dates never raises: it falls back to parsing the whole string
as a single date, yielding either Unparseable or an equal start/end pair. -/
theorem ambiguous_split_fallback (P : Parser) (s y : Str)
    (h : 2 < (splitParts (normalize_ws s)).length) :
    parse_dates P s y = (none, none) ∨
      ∃ d, parse_dates P s y = (some d, some d) := by
  have hc : '-' ∈ normalize_ws s :=
    hyphen_mem_of_splitParts _ (by omega)
  have hr : rangeStrings s y = none := by
    unfold rangeStrings
    rw [if_pos hc]
    cases hsp : splitParts (normalize_ws s) with
    | nil => rfl
    | cons p1 t =>
      cases t with
      | nil => rfl
      | cons p2 t2 =>
        cases t2 with
        | nil => rw [hsp] at h; simp at h
        | cons p3 t3 => rfl
  obtain ⟨t, ht⟩ := parse_dates_eq_single P s y hr
  cases hp : P t with
  | none => left; rw [ht, hp]
  | some d => right; exact ⟨d, by rw [ht, hp]⟩

/-- C2 (witness): the ISO-date input exercises the amended claim. -/
theorem ambiguous_split_fallback_witness :
    2 < (splitParts (normalize_ws "2022-05-06".toList)).length ∧
    (parse_dates dateparser_parse "2022-05-06".toList "2024".toList =
        (none, none) ∨
      ∃ d, parse_dates dateparser_parse "2022-05-06".toList "2024".toList =
        (some d, some d)) :=
  ⟨by decide,
    ambiguous_split_fallback dateparser_parse "2022-05-06".toList
      "2024".toList (by decide)⟩

/-- C3 (counterexample): in "2023 - 5 May 2023" the first part "2023"
already contains a four-digit year, yet it is not passed to the parser
unchanged — the month-recovery step first copies "May" onto it. -/
theorem year_part_changed_cex :
    hasYear "2023".toList = true ∧
    rangeStrings "2023 - 5 May 2023".toList "2099".toList =
      some ("2023 May".toList, "5 May 2023".toList) ∧
    "2023 May".toList ≠ "2023".toList := by
  refine ⟨by decide, by decide, by decide⟩

/-- C3 (amended): on a two-part split, if neither the month-recovered first
part nor the second part contains a four-digit 20dd year, the context year
is appended to each before the parser is invoked; parts already containing
such a year receive no year suffix (though the first part may still have a
month token copied onto it by the month-recovery step). -/
theorem year_append_rule (P : Parser) (s y p1 p2 : Str)
    (hsp : splitParts (normalize_ws s) = [p1, p2]) :
    (hasYear (fixMonth p1 p2) = false → hasYear p2 = false →
      parse_dates P s y =
        pairOf (rangeCombine P (fixMonth p1 p2 ++ ' ' :: y)
          (p2 ++ ' ' :: y))) ∧
    (hasYear (fixMonth p1 p2) = true → hasYear p2 = true →
      parse_dates P s y = pairOf (rangeCombine P (fixMonth p1 p2) p2)) := by
  have hc : '-' ∈ normalize_ws s :=
    hyphen_mem_of_splitParts _ (by rw [hsp]; simp)
  have hr : rangeStrings s y =
      some (fixYear (fixMonth p1 p2) y, fixYear p2 y) := by
    unfold rangeStrings
    rw [if_pos hc, hsp]
  constructor
  · intro h1 h2
    rw [parse_dates_eq_range P s y _ _ hr]
    unfold fixYear
    rw [h1, h2]
    simp
  · intro h1 h2
    rw [parse_dates_eq_range P s y _ _ hr]
    unfold fixYear
    rw [h1, h2]
    simp

/-- C3 (witness): a year-less range gets the context year appended on both
sides before parsing. -/
theorem year_append_rule_witness :
    splitParts (normalize_ws "30 Dec - 2 Jan".toList) =
      ["30 Dec".toList, "2 Jan".toList] ∧
    parse_dates dateparser_parse "30 Dec - 2 Jan".toList "2022".toList =
      pairOf (rangeCombine dateparser_parse "30 Dec 2022".toList
        "2 Jan 2022".toList) :=
  ⟨by decide,
    (year_append_rule dateparser_parse "30 Dec - 2 Jan".toList "2022".toList
      "30 Dec".toList "2 Jan".toList (by decide)).1 (by decide) (by decide)⟩

/-- C4: on a two-part split where the first part has no recognizable month
name but the second does, the month token found in the second part is
appended to the first part before year-appending and parsing. -/
theorem month_copied (P : Parser) (s y p1 p2 m : Str)
    (hsp : splitParts (normalize_ws s) = [p1, p2])
    (hm1 : searchMonth p1 = none) (hm2 : searchMonth p2 = some m) :
    parse_dates P s y =
      pairOf (rangeCombine P (fixYear (p1 ++ ' ' :: m) y) (fixYear p2 y)) := by
  have hc : '-' ∈ normalize_ws s :=
    hyphen_mem_of_splitParts _ (by rw [hsp]; simp)
  have hr : rangeStrings s y =
      some (fixYear (fixMonth p1 p2) y, fixYear p2 y) := by
    unfold rangeStrings
    rw [if_pos hc, hsp]
  rw [parse_dates_eq_range P s y _ _ hr]
  unfold fixMonth
  rw [hm1, hm2]

/-- C4 (witness): "12 - 15 March" recovers the month for the first half. -/
theorem month_copied_witness :
    splitParts (normalize_ws "12 - 15 March".toList) =
      ["12".toList, "15 March".toList] ∧
    searchMonth "12".toList = none ∧
    searchMonth "15 March".toList = some "March".toList ∧
    parse_dates dateparser_parse "12 - 15 March".toList "2023".toList =
      pairOf (rangeCombine dateparser_parse
        (fixYear ("12".toList ++ ' ' :: "March".toList) "2023".toList)
        (fixYear "15 March".toList "2023".toList)) :=
  ⟨by decide, by decide, by decide,
    month_copied dateparser_parse "12 - 15 March".toList "2023".toList
      "12".toList "15 March".toList "March".toList
      (by decide) (by decide) (by decide)⟩

/-- C5: on "30 Dec - 2 Jan" with context year 2022, for any parser that
reads "30 Dec 2022" as 2022-12-30 and "2 Jan 2022" as 2022-01-02 (as the
natural-language parser does), parse_dates returns start 2022-12-30 and end
2023-01-02 — the end first parses before the start and its year is advanced
by one. -/
theorem normalize_dec30_jan2 (P : Parser)
    (h1 : P "30 Dec 2022".toList = some ⟨2022, 12, 30⟩)
    (h2 : P "2 Jan 2022".toList = some ⟨2022, 1, 2⟩) :
    parse_dates P "30 Dec - 2 Jan".toList "2022".toList =
      (some ⟨2022, 12, 30⟩, some ⟨2023, 1, 2⟩) := by
  have hr : rangeStrings "30 Dec - 2 Jan".toList "2022".toList =
      some ("30 Dec 2022".toList, "2 Jan 2022".toList) := by decide
  rw [parse_dates_eq_range P _ _ _ _ hr]
  unfold rangeCombine
  rw [h1, h2]
  decide

/-- C5 (witness): the concrete parser model realizes the hypotheses. -/
theorem normalize_dec30_jan2_witness :
    dateparser_parse "30 Dec 2022".toList = some ⟨2022, 12, 30⟩ ∧
    dateparser_parse "2 Jan 2022".toList = some ⟨2022, 1, 2⟩ ∧
    parse_dates dateparser_parse "30 Dec - 2 Jan".toList "2022".toList =
      (some ⟨2022, 12, 30⟩, some ⟨2023, 1, 2⟩) :=
  ⟨by decide, by decide, normalize_dec30_jan2 dateparser_parse
    (by decide) (by decide)⟩

/-- C6: when both sides of a two-part range carry a recognizable month name
and a four-digit 20dd year (the year pattern the code checks for), the
result of parse_dates is the same for every context year. -/
theorem context_year_no_interference (P : Parser) (s y1 y2 p1 p2 : Str)
    (hsp : splitParts (normalize_ws s) = [p1, p2])
    (hm1 : (searchMonth p1).isSome = true)
    (_hm2 : (searchMonth p2).isSome = true)
    (hy1 : hasYear p1 = true) (hy2 : hasYear p2 = true) :
    parse_dates P s y1 = parse_dates P s y2 := by
  have hc : '-' ∈ normalize_ws s :=
    hyphen_mem_of_splitParts _ (by rw [hsp]; simp)
  obtain ⟨mm, hmm⟩ := Option.isSome_iff_exists.mp hm1
  have hfix : fixMonth p1 p2 = p1 := by
    unfold fixMonth
    rw [hmm]
  have hr : ∀ y : Str, rangeStrings s y = some (p1, p2) := by
    intro y
    unfold rangeStrings
    rw [if_pos hc, hsp]
    show some (fixYear (fixMonth p1 p2) y, fixYear p2 y) = some (p1, p2)
    rw [hfix]
    unfold fixYear
    rw [hy1, hy2]
    simp
  rw [parse_dates_eq_range P s y1 _ _ (hr y1),
    parse_dates_eq_range P s y2 _ _ (hr y2)]

/-- C6 (witness): a fully specified range parses identically under two
different context years. -/
theorem context_year_no_interference_witness :
    splitParts (normalize_ws "5 May 2023 - 6 May 2023".toList) =
      ["5 May 2023".toList, "6 May 2023".toList] ∧
    parse_dates dateparser_parse "5 May 2023 - 6 May 2023".toList
        "2001".toList =
      parse_dates dateparser_parse "5 May 2023 - 6 May 2023".toList
        "2099".toList :=
  ⟨by decide,
    context_year_no_interference dateparser_parse
      "5 May 2023 - 6 May 2023".toList "2001".toList "2099".toList
      "5 May 2023".toList "6 May 2023".toList
      (by decide) (by decide) (by decide) (by decide) (by decide)⟩

/-- C9: parse_dates is total by construction, and the one exception the
body can raise after the parsers succeed — the ValueError of replace when
the rolled-over end date (end.year + 1) does not exist, i.e. Feb 29 of a
non-leap year — makes the body error out and is caught, the function
returning (None, None). -/
theorem rollover_invalid_caught (P : Parser) (s y q1 q2 : Str) (a b : PDate)
    (hr : rangeStrings s y = some (q1, q2))
    (h1 : P q1 = some a) (h2 : P q2 = some b)
    (hlt : PDate.lt b a = true)
    (hv : validDate (b.year + 1) b.month b.day = false) :
    parse_dates_body P s y = Except.error () ∧
      parse_dates P s y = (none, none) := by
  have hb : parse_dates_body P s y = Except.error () := by
    rw [body_eq_range P s y q1 q2 hr]
    unfold rangeCombine
    rw [h1, h2]
    show (if PDate.lt b a = true then
        match replaceYear b (b.year + 1) with
        | Except.ok ed2 => Except.ok (some a, some ed2)
        | Except.error u => Except.error u
      else Except.ok (some a, some b)) = Except.error ()
    rw [if_pos hlt]
    unfold replaceYear
    rw [hv]
    simp
  refine ⟨hb, ?_⟩
  rw [parse_dates, hb]
  rfl

/-- C9 (witness): "1 Mar - 29 Feb" in 2024 parses to 2024-03-01 and
2024-02-29; the rollover to Feb 29 2025 does not exist, the body raises and
the function returns (None, None). -/
theorem rollover_invalid_caught_witness :
    rangeStrings "1 Mar - 29 Feb".toList "2024".toList =
      some ("1 Mar 2024".toList, "29 Feb 2024".toList) ∧
    dateparser_parse "1 Mar 2024".toList = some ⟨2024, 3, 1⟩ ∧
    dateparser_parse "29 Feb 2024".toList = some ⟨2024, 2, 29⟩ ∧
    PDate.lt ⟨2024, 2, 29⟩ ⟨2024, 3, 1⟩ = true ∧
    validDate 2025 2 29 = false ∧
    parse_dates_body dateparser_parse "1 Mar - 29 Feb".toList "2024".toList =
      Except.error () ∧
    parse_dates dateparser_parse "1 Mar - 29 Feb".toList "2024".toList =
      (none, none) := by
  have h := rollover_invalid_caught dateparser_parse "1 Mar - 29 Feb".toList
    "2024".toList "1 Mar 2024".toList "29 Feb 2024".toList
    ⟨2024, 3, 1⟩ ⟨2024, 2, 29⟩ (by decide) (by decide) (by decide)
    (by decide) (by decide)
  exact ⟨by decide, by decide, by decide, by decide, by decide, h.1, h.2⟩

/-- The drop-then-format tail of process_dates collapses to a filterMap:
rows with a fully parsed pair are kept (formatted), all others dropped. -/
theorem format_dropna_filterMap
    (l : List (List Str × (Option PDate × Option PDate))) :
    formatParsed (dropnaParsed l) =
      l.filterMap (fun x =>
        match x.2 with
        | (some a, some b) =>
          some ⟨x.1, strftimeYMD a, strftimeYMD b⟩
        | _ => none) := by
  induction l with
  | nil => rfl
  | cons x rest ih =>
    obtain ⟨r, o1, o2⟩ := x
    cases o1 <;> cases o2 <;>
      simp [dropnaParsed, formatParsed, List.filter_cons, List.filterMap_cons,
        Option.getD] <;>
      simpa [dropnaParsed, formatParsed] using ih

/-- C7: a sheet whose frame lacks the Date column yields an empty result,
and the batch output is exactly the concatenation of the remaining
sheets. -/
theorem missing_date_column (wb : Str → Option Frame) (P : Parser)
    (s : Str) (f : Frame) (h1 : wb s = some f) (h2 : dateCol ∉ f.cols) :
    process_dates wb P s = [] ∧
      main_df wb P = ((sheets.erase s).map (process_dates wb P)).flatten := by
  have hp : process_dates wb P s = [] := by
    have hred : process_dates wb P s =
        if dateCol ∈ f.cols then
          formatParsed (dropnaParsed (addParsed P f.cols s f.rows))
        else [] := by
      unfold process_dates
      rw [h1]
    rw [hred, if_neg h2]
  refine ⟨hp, ?_⟩
  unfold main_df sheets
  by_cases e1 : "2022".toList = s
  · subst e1
    rw [show (["2022".toList, "2023".toList, "2024".toList].erase
        ("2022".toList)) = ["2023".toList, "2024".toList] from by decide]
    simp only [List.map_cons, List.map_nil, List.flatten_cons,
      List.flatten_nil, hp, List.nil_append, List.append_nil]
  · by_cases e2 : "2023".toList = s
    · subst e2
      rw [show (["2022".toList, "2023".toList, "2024".toList].erase
          ("2023".toList)) = ["2022".toList, "2024".toList] from by decide]
      simp only [List.map_cons, List.map_nil, List.flatten_cons,
        List.flatten_nil, hp, List.nil_append, List.append_nil]
    · by_cases e3 : "2024".toList = s
      · subst e3
        rw [show (["2022".toList, "2023".toList, "2024".toList].erase
            ("2024".toList)) = ["2022".toList, "2023".toList] from by decide]
        simp only [List.map_cons, List.map_nil, List.flatten_cons,
          List.flatten_nil, hp, List.nil_append, List.append_nil]
      · have her : (["2022".toList, "2023".toList, "2024".toList] :
            List Str).erase s =
            ["2022".toList, "2023".toList, "2024".toList] := by
          rw [List.erase_cons, List.erase_cons, List.erase_cons]
          rw [if_neg (fun hh => e1 (eq_of_beq hh)),
            if_neg (fun hh => e2 (eq_of_beq hh)),
            if_neg (fun hh => e3 (eq_of_beq hh))]
          rfl
        rw [her]

/-- A workbook used only in the C7 witness: its single sheet "2023" has one
column named N (no Date column). -/
def wbNoDate : Str → Option Frame := fun t =>
  if t = "2023".toList then some ⟨[['N']], [[['x']]]⟩ else none

/-- C7 (witness): processing the Date-less sheet gives an empty result and
the batch equals the concatenation of the other sheets. -/
theorem missing_date_column_witness :
    wbNoDate "2023".toList = some ⟨[['N']], [[['x']]]⟩ ∧
    dateCol ∉ (Frame.mk [['N']] [[['x']]]).cols ∧
    process_dates wbNoDate dateparser_parse "2023".toList = [] ∧
    main_df wbNoDate dateparser_parse =
      ((sheets.erase "2023".toList).map
        (process_dates wbNoDate dateparser_parse)).flatten := by
  have h := missing_date_column wbNoDate dateparser_parse "2023".toList
    ⟨[['N']], [[['x']]]⟩ (by decide) (by decide)
  exact ⟨by decide, by decide, h.1, h.2⟩

/-- C8: for a sheet with a Date column, the output keeps exactly the rows
whose date string parses (Unparseable rows are dropped) and formats the
parsed start and end dates as year-month-day with zero padding. -/
theorem process_drop_and_format (wb : Str → Option Frame) (P : Parser)
    (s : Str) (f : Frame) (h1 : wb s = some f) (h2 : dateCol ∈ f.cols) :
    process_dates wb P s = f.rows.filterMap (fun r =>
      match parse_dates P (getCell f.cols r dateCol) s with
      | (some a, some b) =>
        some ⟨r, strftimeYMD a, strftimeYMD b⟩
      | _ => none) := by
  have hred : process_dates wb P s =
      if dateCol ∈ f.cols then
        formatParsed (dropnaParsed (addParsed P f.cols s f.rows))
      else [] := by
    unfold process_dates
    rw [h1]
  rw [hred, if_pos h2, format_dropna_filterMap]
  unfold addParsed
  rw [List.filterMap_map]
  rfl

/-- A workbook used only in the C8 witness: sheet "2022" has a Date column
with one parseable range and one unparseable cell. -/
def wbEvents : Str → Option Frame := fun t =>
  if t = "2022".toList then
    some ⟨[dateCol], [["30 Dec - 2 Jan".toList], ["nonsense".toList]]⟩
  else none

/-- C8 (witness): the parseable row survives with formatted dates, the
unparseable row is dropped. -/
theorem process_drop_and_format_witness :
    wbEvents "2022".toList =
      some ⟨[dateCol], [["30 Dec - 2 Jan".toList], ["nonsense".toList]]⟩ ∧
    dateCol ∈ [dateCol] ∧
    process_dates wbEvents dateparser_parse "2022".toList =
      [⟨["30 Dec - 2 Jan".toList], "2022-12-30".toList,
        "2023-01-02".toList⟩] := by
  refine ⟨by decide, by decide, ?_⟩
  rw [process_drop_and_format wbEvents dateparser_parse "2022".toList
    ⟨[dateCol], [["30 Dec - 2 Jan".toList], ["nonsense".toList]]⟩
    (by decide) (by decide)]
  decide
